import Mathlib

/-!
Shallow embedding of the `amplifier-module-style-extraction` repository.

The two source files under verification are
`src/amplifier_module_style_extraction/models.py` (the `StyleProfile`
pydantic model, its validation and its `to_prompt_text` rendering) and
`src/amplifier_module_style_extraction/extractor.py` (the `StyleExtractor`
pipeline `extract_style` / `_analyze_with_ai` / `_default_profile`).

Modelling conventions:
* Python strings are Lean `String`s; `str.join`, slicing (`[:n]`) and
  f-string concatenation are modelled by `joinSep`, `String.take` and `++`.
* The filesystem and the external pydantic-ai agent are the only effects
  `extract_style` performs; they are passed in explicitly as an `Env`
  (`glob` models `Path.glob("**/*.md")` at a given directory, returning the
  discovered files together with the outcome each `read_text` call would
  have, and `agent` models `Agent.run`, which either returns a validated
  `StyleProfile` or raises).  Which files the pipeline attempts to read and
  whether it reaches the external agent are recorded in a `Trace`.
* Exceptions are modelled with `Except String`; the message carried by
  `StyleExtractionError` is the `String` on the `error` side.
* Pydantic construction/validation of the field declarations in `models.py`
  is modelled by `model_validate` over an untyped field mapping
  (`RawProfile`), and pydantic JSON serialization by an executable JSON
  printer (`model_dump_json`) and decoder (`model_validate_json`).
-/

/-- Model of Python `sep.join(parts)`. -/
def joinSep (sep : String) : List String → String
  | [] => ""
  | [x] => x
  | x :: y :: xs => x ++ sep ++ joinSep sep (y :: xs)

/-- Model of the Python f-string fragment `f'"{s}"'`. -/
def quoteStr (s : String) : String := "\"" ++ s ++ "\""

/-- Substring test on character lists: does `sub` occur at the start? -/
def charsStart : List Char → List Char → Bool
  | [], _ => true
  | _ :: _, [] => false
  | a :: as, b :: bs => a == b && charsStart as bs

/-- Substring test on character lists: does `sub` occur anywhere? -/
def charsContain (sub : List Char) : List Char → Bool
  | [] => charsStart sub []
  | c :: cs => charsStart sub (c :: cs) || charsContain sub (c :: cs).tail

/-- Model of Python `sub in s`. -/
def containsSub (s sub : String) : Bool := charsContain sub.data s.data

/-- Model of Python `s.startswith(pre)`. -/
def strStarts (s pre : String) : Bool := charsStart pre.data s.data

/-- The `StyleProfile` record of `models.py`: five required scalar string
fields followed by the three list fields (which pydantic defaults to `[]`
via `default_factory=list`). -/
structure StyleProfile where
  tone : String
  vocabulary_level : String
  sentence_structure : String
  paragraph_length : String
  voice : String
  common_phrases : List String
  writing_patterns : List String
  examples : List String
  deriving DecidableEq, Repr

namespace StyleProfile

/-- The five mandatory instruction lines built first in `to_prompt_text`
(`models.py` lines 78-84), in source order. -/
def scalarParts (p : StyleProfile) : List String :=
  ["Write with a " ++ p.tone ++ " tone.",
   "Use " ++ p.vocabulary_level ++ " vocabulary level.",
   "Structure sentences: " ++ p.sentence_structure ++ ".",
   "Prefer " ++ p.paragraph_length ++ " paragraphs.",
   "Use " ++ p.voice ++ " voice."]

/-- The common-phrases line of `to_prompt_text` (`models.py` lines 86-88):
first five phrases, each quoted, comma-joined. -/
def phrasesLine (p : StyleProfile) : String :=
  "Common phrases include: " ++ joinSep ", " ((p.common_phrases.take 5).map quoteStr) ++ "."

/-- The writing-patterns line of `to_prompt_text` (`models.py` lines 90-92):
all patterns, comma-joined, no truncation. -/
def patternsLine (p : StyleProfile) : String :=
  "Follow these patterns: " ++ joinSep ", " p.writing_patterns ++ "."

/-- One indented quoted bullet of the examples section (`models.py` line 97). -/
def exampleBullet (e : String) : String := "  - " ++ quoteStr e

/-- The `parts` list assembled by `to_prompt_text` (`models.py` lines 78-97):
the five scalar lines, then each optional section appended only when the
corresponding list is non-empty (Python truthiness of a list). -/
def promptParts (p : StyleProfile) : List String :=
  let parts := p.scalarParts
  let parts := if p.common_phrases ≠ [] then parts ++ [p.phrasesLine] else parts
  let parts := if p.writing_patterns ≠ [] then parts ++ [p.patternsLine] else parts
  let parts :=
    if p.examples ≠ [] then
      parts ++ ("Example style:" :: (p.examples.take 3).map exampleBullet)
    else parts
  parts

/-- `StyleProfile.to_prompt_text` (`models.py` line 99): `"\n".join(parts)`. -/
def to_prompt_text (p : StyleProfile) : String := joinSep "\n" p.promptParts

end StyleProfile

/-- Model of `Path.expanduser()` as called on `samples_dir`
(`extractor.py` line 59): a leading `~` component is replaced by the home
directory; everything else (environment variables included) is left
untouched.  (The `~user` form, which consults the user database, does not
occur in any claim and is not modelled.) -/
def expanduser (home : String) (p : String) : String :=
  if p = "~" then home
  else if strStarts p "~/" then home ++ p.drop 1
  else p

/-- Decidable equality of `Except` results (needed to evaluate concrete
pipeline runs). -/
instance {α β : Type} [DecidableEq α] [DecidableEq β] : DecidableEq (Except α β) := fun x y =>
  match x, y with
  | Except.ok a, Except.ok b =>
    if h : a = b then isTrue (h ▸ rfl) else isFalse (fun he => h (Except.ok.inj he))
  | Except.ok _, Except.error _ => isFalse (fun he => Except.noConfusion he)
  | Except.error _, Except.ok _ => isFalse (fun he => Except.noConfusion he)
  | Except.error a, Except.error b =>
    if h : a = b then isTrue (h ▸ rfl) else isFalse (fun he => h (Except.error.inj he))

/-- One file discovered by `samples_dir.glob("**/*.md")`: its `name`
(final path component, used in the `=== name ===` delimiter) and the
outcome its `read_text(encoding="utf-8")` call would have (`error` models
the exception raised by an unreadable file). -/
structure MDFile where
  name : String
  readResult : Except String String
  deriving DecidableEq, Repr

/-- The effects `extract_style` depends on: the home directory consulted by
`expanduser`, the recursive `**/*.md` listing under a given directory, and
the external pydantic-ai `Agent.run` call (which either returns a
schema-validated `StyleProfile` or raises). -/
structure Env where
  home : String
  glob : String → List MDFile
  agent : String → Except String StyleProfile

/-- Observable effects of one `extract_style` call: names of the files whose
read was attempted, and whether the external agent was invoked. -/
structure Trace where
  readsAttempted : List String
  agentCalled : Bool
  deriving DecidableEq, Repr

/-- `StyleExtractor._default_profile` (`extractor.py` lines 135-150). -/
def default_profile : StyleProfile :=
  ⟨"conversational", "moderate", "varied", "medium", "active",
   [],
   ["introduction-body-conclusion", "problem-solution"],
   ["Clear and direct communication.", "Focus on practical value."]⟩

/-- The fixed instruction prompt built by `_analyze_with_ai`
(`extractor.py` lines 103-117), embedding the combined samples verbatim. -/
def analysisPrompt (samples : String) : String :=
  "Analyze these writing samples to extract the author's style:\n\n"
  ++ samples ++
  "\n\nExtract:\n1. Overall tone (formal/casual/technical/conversational)\n2. Vocabulary complexity level (simple/moderate/advanced)\n3. Typical sentence structure patterns\n4. Paragraph length preference (short/medium/long)\n5. Common phrases or expressions (list)\n6. Recurring writing patterns (list)\n7. Voice preference (active/passive/mixed)\n8. 3-5 example sentences that best capture the style (list)\n\nReturn a structured response with these fields."

/-- The fixed system prompt the agent is configured with (`extractor.py` line 123). -/
def systemPrompt : String :=
  "You are an expert writing style analyst. Extract detailed style characteristics from text samples."

/-- The fixed backing model identifier (`extractor.py` line 121). -/
def agentModelId : String := "openai:gpt-4o"

/-- `StyleExtractor._analyze_with_ai` (`extractor.py` lines 91-133): build
the prompt, run the agent, and on any exception fall back to the fixed
default profile.  Total by construction — the call never raises. -/
def analyze_with_ai (agent : String → Except String StyleProfile) (samples : String) :
    StyleProfile :=
  match agent (analysisPrompt samples) with
  | Except.ok p => p
  | Except.error _ => default_profile

/-- `max_samples` (`extractor.py` line 68). -/
def max_samples : Nat := 5

/-- `max_chars_per_sample` (`extractor.py` line 69). -/
def max_chars_per_sample : Nat := 3000

/-- One iteration of the read loop (`extractor.py` lines 71-77): a readable
file contributes `f"=== {file.name} ===\n{content}"` with the content
truncated to `max_chars_per_sample` characters; an unreadable file is
skipped (warning only). -/
def sampleOf (f : MDFile) : Option String :=
  match f.readResult with
  | Except.ok content => some ("=== " ++ f.name ++ " ===\n" ++ content.take max_chars_per_sample)
  | Except.error _ => none

/-- `StyleExtractor.extract_style` (`extractor.py` lines 40-89): expand the
path, discover `**/*.md` files, fail if none, read the first `max_samples`
files skipping unreadable ones, fail if none were readable, then join the
samples with blank lines and run the AI analysis.  The second component
records which reads were attempted and whether the agent was reached. -/
def extract_style (env : Env) (samples_dir : String) :
    Except String StyleProfile × Trace :=
  let dir := expanduser env.home samples_dir
  let files := env.glob dir
  if files = [] then
    (Except.error ("No markdown files found in " ++ dir), ⟨[], false⟩)
  else
    let attempted := files.take max_samples
    let samples := attempted.filterMap sampleOf
    if samples = [] then
      (Except.error "Could not read any writing samples", ⟨attempted.map MDFile.name, false⟩)
    else
      (Except.ok (analyze_with_ai env.agent (joinSep "\n\n" samples)),
       ⟨attempted.map MDFile.name, true⟩)

/-- An untyped JSON-style field value: pydantic sees either a string or a
list of strings at the fields of `StyleProfile`. -/
inductive PValue where
  | s : String → PValue
  | l : List String → PValue
  deriving DecidableEq, Repr

/-- An untyped field mapping for `StyleProfile`: what pydantic construction
(`StyleProfile(**kwargs)` / `model_validate`) receives.  `none` models an
omitted field. -/
structure RawProfile where
  tone : Option PValue := none
  vocabulary_level : Option PValue := none
  sentence_structure : Option PValue := none
  paragraph_length : Option PValue := none
  voice : Option PValue := none
  common_phrases : Option PValue := none
  writing_patterns : Option PValue := none
  examples : Option PValue := none
  deriving DecidableEq, Repr

/-- Pydantic validation of a required `str` field (`models.py` lines 44-48):
missing or non-string input is a validation error. -/
def reqStr (fieldName : String) : Option PValue → Except String String
  | some (PValue.s v) => Except.ok v
  | some (PValue.l _) => Except.error (fieldName ++ ": string expected")
  | none => Except.error (fieldName ++ ": field required")

/-- Pydantic validation of a `list[str]` field with `default_factory=list`
(`models.py` lines 49-51): an omitted field defaults to `[]`. -/
def optStrList (fieldName : String) : Option PValue → Except String (List String)
  | some (PValue.l v) => Except.ok v
  | some (PValue.s _) => Except.error (fieldName ++ ": list expected")
  | none => Except.ok []

namespace StyleProfile

/-- Pydantic `StyleProfile.model_validate` / keyword construction: validate
each declared field of `models.py` lines 44-51 against the raw mapping. -/
def model_validate (r : RawProfile) : Except String StyleProfile := do
  let t ← reqStr "tone" r.tone
  let vl ← reqStr "vocabulary_level" r.vocabulary_level
  let ss ← reqStr "sentence_structure" r.sentence_structure
  let pl ← reqStr "paragraph_length" r.paragraph_length
  let vo ← reqStr "voice" r.voice
  let cp ← optStrList "common_phrases" r.common_phrases
  let wp ← optStrList "writing_patterns" r.writing_patterns
  let ex ← optStrList "examples" r.examples
  pure ⟨t, vl, ss, pl, vo, cp, wp, ex⟩

/-- Pydantic `StyleProfile.model_dump`: the plain key-value mapping holding
every field of the profile. -/
def model_dump (p : StyleProfile) : RawProfile :=
  ⟨some (PValue.s p.tone), some (PValue.s p.vocabulary_level),
   some (PValue.s p.sentence_structure), some (PValue.s p.paragraph_length),
   some (PValue.s p.voice), some (PValue.l p.common_phrases),
   some (PValue.l p.writing_patterns), some (PValue.l p.examples)⟩

end StyleProfile

/-- Opening-brace character of a JSON object. -/
def lbrace : Char := Char.ofNat 123

/-- Closing-brace character of a JSON object. -/
def rbrace : Char := Char.ofNat 125

/-- Hexadecimal digit character for `n < 16` (upper-case letters). -/
def hexDig (n : Nat) : Char := Char.ofNat (if n < 10 then 48 + n else 55 + n)

/-- JSON string escaping of one character: quote and backslash get a
backslash escape, control characters a `\u00XX` escape, and every other
character stands for itself. -/
def escChar (c : Char) : List Char :=
  if c = '"' then ['\\', '"']
  else if c = '\\' then ['\\', '\\']
  else if c.toNat < 32 then ['\\', 'u', '0', '0', hexDig (c.toNat / 16), hexDig (c.toNat % 16)]
  else [c]

/-- JSON encoding of a string: escaped content between double quotes. -/
def encStr (s : String) : String :=
  "\"" ++ String.mk ((s.data.map escChar).flatten) ++ "\""

/-- JSON encoding of an array of strings. -/
def encStrList (xs : List String) : String :=
  "[" ++ joinSep "," (xs.map encStr) ++ "]"

/-- JSON encoding of an untyped field value. -/
def encVal : PValue → String
  | PValue.s v => encStr v
  | PValue.l v => encStrList v

/-- The eight key/value pairs of the serialized profile, in field order of
`models.py`. -/
def dumpPairs (p : StyleProfile) : List (String × PValue) :=
  [("tone", PValue.s p.tone),
   ("vocabulary_level", PValue.s p.vocabulary_level),
   ("sentence_structure", PValue.s p.sentence_structure),
   ("paragraph_length", PValue.s p.paragraph_length),
   ("voice", PValue.s p.voice),
   ("common_phrases", PValue.l p.common_phrases),
   ("writing_patterns", PValue.l p.writing_patterns),
   ("examples", PValue.l p.examples)]

/-- JSON encoding of the members of an object, comma-joined. -/
def encPairs (pairs : List (String × PValue)) : String :=
  joinSep "," (pairs.map (fun kv => encStr kv.1 ++ ":" ++ encVal kv.2))

/-- Pydantic `StyleProfile.model_dump_json`: the profile as one JSON text. -/
def StyleProfile.model_dump_json (p : StyleProfile) : String :=
  "\x7b" ++ encPairs (dumpPairs p) ++ "\x7d"

/-- Numeric value of a hexadecimal digit character. -/
def hexVal (c : Char) : Option Nat :=
  if 48 ≤ c.toNat ∧ c.toNat ≤ 57 then some (c.toNat - 48)
  else if 65 ≤ c.toNat ∧ c.toNat ≤ 70 then some (c.toNat - 55)
  else if 97 ≤ c.toNat ∧ c.toNat ≤ 102 then some (c.toNat - 87)
  else none

/-- JSON string-body decoder: consume characters up to an unescaped closing
quote, undoing the escapes of `escChar`, and return the decoded characters
together with the input remaining after the closing quote. -/
def decStrAux : List Char → Option (List Char × List Char)
  | [] => none
  | c :: rest =>
    if c = '"' then some ([], rest)
    else if c = '\\' then
      match rest with
      | [] => none
      | e :: rest2 =>
        if e = '"' then (decStrAux rest2).map (fun pr => ('"' :: pr.1, pr.2))
        else if e = '\\' then (decStrAux rest2).map (fun pr => ('\\' :: pr.1, pr.2))
        else if e = 'u' then
          match rest2 with
          | h1 :: h2 :: h3 :: h4 :: rest3 =>
            match hexVal h1, hexVal h2, hexVal h3, hexVal h4 with
            | some a, some b, some c2, some d =>
              (decStrAux rest3).map
                (fun pr => (Char.ofNat (((a * 16 + b) * 16 + c2) * 16 + d) :: pr.1, pr.2))
            | _, _, _, _ => none
          | _ => none
        else none
    else if c.toNat < 32 then none
    else (decStrAux rest).map (fun pr => (c :: pr.1, pr.2))

/-- JSON string decoder: an opening quote followed by a string body. -/
def decStr : List Char → Option (String × List Char)
  | [] => none
  | c :: rest =>
    if c = '"' then (decStrAux rest).map (fun pr => (String.mk pr.1, pr.2))
    else none

/-- JSON string-array decoder, entered after the opening bracket; `fuel`
bounds the number of elements. -/
def decItems (fuel : Nat) (cs : List Char) : Option (List String × List Char) :=
  match cs with
  | [] => none
  | c :: rest =>
    if c = ']' then some ([], rest)
    else
      match decStr (c :: rest) with
      | none => none
      | some (s, r1) =>
        match r1 with
        | [] => none
        | c1 :: r2 =>
          if c1 = ',' then
            match fuel with
            | 0 => none
            | fuel' + 1 =>
              match decItems fuel' r2 with
              | some (ss, r) => some (s :: ss, r)
              | none => none
          else if c1 = ']' then some ([s], r2)
          else none

/-- JSON value decoder for the values occurring in a serialized profile:
a string or an array of strings. -/
def decVal (fuel : Nat) (cs : List Char) : Option (PValue × List Char) :=
  match cs with
  | [] => none
  | c :: rest =>
    if c = '[' then (decItems fuel rest).map (fun pr => (PValue.l pr.1, pr.2))
    else (decStr (c :: rest)).map (fun pr => (PValue.s pr.1, pr.2))

/-- JSON object-member decoder, entered after the opening brace; `pfuel`
bounds the number of members, `vfuel` the size of each array value. -/
def decPairs (pfuel vfuel : Nat) (cs : List Char) :
    Option (List (String × PValue) × List Char) :=
  match cs with
  | [] => none
  | c :: rest =>
    if c = rbrace then some ([], rest)
    else
      match decStr (c :: rest) with
      | none => none
      | some (k, r1) =>
        match r1 with
        | [] => none
        | c1 :: r2 =>
          if c1 = ':' then
            match decVal vfuel r2 with
            | none => none
            | some (v, r3) =>
              match r3 with
              | [] => none
              | c2 :: r4 =>
                if c2 = rbrace then some ([(k, v)], r4)
                else if c2 = ',' then
                  match pfuel with
                  | 0 => none
                  | pfuel' + 1 =>
                    match decPairs pfuel' vfuel r4 with
                    | some (ps, r5) => some ((k, v) :: ps, r5)
                    | none => none
                else none
          else none

/-- JSON document decoder: a whole input that is one object whose values
are strings or string arrays yields its member list. -/
def decodeDoc (s : String) : Option (List (String × PValue)) :=
  match s.data with
  | [] => none
  | c :: rest =>
    if c = lbrace then
      match decPairs s.data.length s.data.length rest with
      | some (ps, []) => some ps
      | _ => none
    else none

/-- Rebuild the raw field mapping from decoded JSON object members. -/
def rawOfPairs (ps : List (String × PValue)) : RawProfile :=
  ⟨ps.lookup "tone", ps.lookup "vocabulary_level", ps.lookup "sentence_structure",
   ps.lookup "paragraph_length", ps.lookup "voice", ps.lookup "common_phrases",
   ps.lookup "writing_patterns", ps.lookup "examples"⟩

/-- Pydantic `StyleProfile.model_validate_json`: decode the JSON text and
run the same field validation as construction. -/
def StyleProfile.model_validate_json (s : String) : Except String StyleProfile :=
  match decodeDoc s with
  | some ps => StyleProfile.model_validate (rawOfPairs ps)
  | none => Except.error "invalid JSON document"

/-- Size of a field value as far as the array decoder's fuel is concerned:
the number of elements of an array value. -/
def pvalLen : PValue → Nat
  | PValue.s _ => 0
  | PValue.l xs => xs.length

/-- First character of a string, used to tell the fixed line shapes of
`to_prompt_text` apart. -/
def headCh (s : String) : Option Char := s.data.head?

/-- Test profile for the truncation behaviour of `to_prompt_text`: ten
common phrases and ten examples (mirrors
`test_style_profile_to_prompt_text_limits_phrases` / `_limits_examples`). -/
def truncProfile : StyleProfile :=
  ⟨"conversational", "moderate", "varied", "medium", "active",
   ["phrase0", "phrase1", "phrase2", "phrase3", "phrase4",
    "phrase5", "phrase6", "phrase7", "phrase8", "phrase9"],
   [],
   ["Example 0.", "Example 1.", "Example 2.", "Example 3.", "Example 4.",
    "Example 5.", "Example 6.", "Example 7.", "Example 8.", "Example 9."]⟩

/-- Test profile with `writing_patterns = [a, b]`. -/
def twoPatternProfile : StyleProfile :=
  ⟨"technical", "advanced", "complex", "long", "active", [], ["a", "b"], []⟩

/-- Test profile with seven writing patterns (more than any truncation
limit used elsewhere in the rendering). -/
def sevenPatternProfile : StyleProfile :=
  ⟨"technical", "advanced", "complex", "long", "active", [],
   ["q0", "q1", "q2", "q3", "q4", "q5", "q6"], []⟩

/-- Environment for evaluating the path-resolution behaviour: the only
directory holding samples is the literal, unexpanded `$DOCS/samples`. -/
def c1env : Env :=
  ⟨"/home/user",
   fun d => if d = "$DOCS/samples" then [⟨"a.md", Except.ok "x"⟩] else [],
   fun _ => Except.error "network unavailable"⟩

/-- Environment with one readable sample and an agent that always fails. -/
def c2env : Env :=
  ⟨"/h", fun _ => [⟨"a.md", Except.ok "hello"⟩], fun _ => Except.error "network unavailable"⟩

/-- Environment whose directories hold no markdown files at all. -/
def c6env : Env :=
  ⟨"/h", fun _ => [], fun _ => Except.error "unused"⟩

/-- Environment with one readable and one unreadable markdown file. -/
def c7env : Env :=
  ⟨"/h",
   fun _ => [⟨"good.md", Except.ok "content"⟩, ⟨"bad.md", Except.error "decode failure"⟩],
   fun _ => Except.error "network unavailable"⟩

/-- Environment whose only markdown file cannot be read. -/
def c7failEnv : Env :=
  ⟨"/h", fun _ => [⟨"bad.md", Except.error "decode failure"⟩], fun _ => Except.error "unused"⟩

/-- Five discovered markdown files (the read bound of the pipeline). -/
def fiveFiles : List MDFile :=
  [⟨"f1.md", Except.ok "one"⟩, ⟨"f2.md", Except.ok "two"⟩, ⟨"f3.md", Except.error "bad"⟩,
   ⟨"f4.md", Except.ok "four"⟩, ⟨"f5.md", Except.ok "five"⟩]

/-- Environment discovering six files, the sixth readable. -/
def sixFilesEnvA : Env :=
  ⟨"/h", fun _ => fiveFiles ++ [⟨"f6.md", Except.ok "six"⟩],
   fun _ => Except.error "network unavailable"⟩

/-- Environment discovering the same six files except that the sixth read
would now fail: indistinguishable from `sixFilesEnvA` if and only if the
sixth file is never read. -/
def sixFilesEnvB : Env :=
  ⟨"/h", fun _ => fiveFiles ++ [⟨"f6.md", Except.error "disk error"⟩],
   fun _ => Except.error "network unavailable"⟩

/-! Helper lemmas about the rendering. -/

/-- Joining a concatenation of two non-empty part lists splits at the
separator. -/
lemma joinSep_append (sep : String) (l₁ l₂ : List String) (h₁ : l₁ ≠ []) (h₂ : l₂ ≠ []) :
    joinSep sep (l₁ ++ l₂) = joinSep sep l₁ ++ sep ++ joinSep sep l₂ := by
  induction l₁ with
  | nil => exact absurd rfl h₁
  | cons x xs ih =>
    cases xs with
    | nil =>
      cases l₂ with
      | nil => exact absurd rfl h₂
      | cons y ys => simp [joinSep]
    | cons y ys =>
      have h := ih (by simp)
      simp only [List.cons_append] at h ⊢
      have e1 : joinSep sep (x :: y :: (ys ++ l₂)) = x ++ sep ++ joinSep sep (y :: (ys ++ l₂)) := rfl
      have e2 : joinSep sep (x :: y :: ys) = x ++ sep ++ joinSep sep (y :: ys) := rfl
      rw [e1, e2, h]
      simp [String.append_assoc]

/-- The `parts` list of `to_prompt_text` in closed form: the five scalar
lines followed by each optional section exactly when its list is
non-empty. -/
lemma promptParts_eq (p : StyleProfile) :
    p.promptParts = p.scalarParts
      ++ (if p.common_phrases ≠ [] then [p.phrasesLine] else [])
      ++ (if p.writing_patterns ≠ [] then [p.patternsLine] else [])
      ++ (if p.examples ≠ [] then
            "Example style:" :: (p.examples.take 3).map StyleProfile.exampleBullet
          else []) := by
  unfold StyleProfile.promptParts
  by_cases h1 : p.common_phrases = [] <;> by_cases h2 : p.writing_patterns = [] <;>
    by_cases h3 : p.examples = [] <;> simp [h1, h2, h3]

/-- The scalar block is never empty. -/
lemma scalarParts_ne_nil (p : StyleProfile) : p.scalarParts ≠ [] := by
  simp [StyleProfile.scalarParts]

/-- Two strings whose first characters differ are different. -/
lemma ne_of_headCh {a b : String} {c₁ c₂ : Char} (ha : headCh a = some c₁)
    (hb : headCh b = some c₂) (hne : c₁ ≠ c₂) : a ≠ b := by
  intro he
  rw [he, hb] at ha
  exact hne (Option.some.inj ha.symm)

/-- The patterns line occurs in the rendered parts exactly once when
`writing_patterns` is non-empty and not at all when it is empty: every
other part starts with a different character. -/
lemma patternsLine_count (p : StyleProfile) :
    p.promptParts.count p.patternsLine = if p.writing_patterns ≠ [] then 1 else 0 := by
  rw [promptParts_eq]
  rw [List.count_append, List.count_append, List.count_append]
  have hs : p.scalarParts.count p.patternsLine = 0 := by
    apply List.count_eq_zero.mpr
    simp only [StyleProfile.scalarParts, List.mem_cons, List.not_mem_nil, or_false]
    push_neg
    exact ⟨ne_of_headCh rfl rfl (by decide), ne_of_headCh rfl rfl (by decide),
      ne_of_headCh rfl rfl (by decide), ne_of_headCh rfl rfl (by decide),
      ne_of_headCh rfl rfl (by decide)⟩
  have hph : (if p.common_phrases ≠ [] then [p.phrasesLine] else []).count p.patternsLine = 0 := by
    split
    · apply List.count_eq_zero.mpr
      simp only [List.mem_singleton]
      exact ne_of_headCh rfl rfl (by decide)
    · rfl
  have hex : (if p.examples ≠ [] then
        "Example style:" :: (p.examples.take 3).map StyleProfile.exampleBullet
      else []).count p.patternsLine = 0 := by
    split
    · apply List.count_eq_zero.mpr
      simp only [List.mem_cons]
      push_neg
      refine ⟨ne_of_headCh rfl rfl (by decide), ?_⟩
      intro hmem
      obtain ⟨e, _, he⟩ := List.mem_map.mp hmem
      exact ne_of_headCh (a := p.patternsLine) (b := StyleProfile.exampleBullet e)
        rfl rfl (by decide) he.symm
    · rfl
  rw [hs, hph, hex]
  split <;> simp

/-- C3: for every StyleProfile, `to_prompt_text` begins with exactly the
five scalar instruction lines in fixed order — tone, vocabulary level,
sentence structure, paragraph length, voice — with the field values
substituted literally, lines joined by newline separators; anything that
follows starts on a fresh line.  (The rendering is a pure function of the
profile, so it is deterministic and cannot modify its argument.) -/
theorem toPromptText_scalar_block (p : StyleProfile) :
    (∃ rest : String,
      p.to_prompt_text =
        "Write with a " ++ p.tone ++ " tone." ++ "\n" ++
        ("Use " ++ p.vocabulary_level ++ " vocabulary level.") ++ "\n" ++
        ("Structure sentences: " ++ p.sentence_structure ++ ".") ++ "\n" ++
        ("Prefer " ++ p.paragraph_length ++ " paragraphs.") ++ "\n" ++
        ("Use " ++ p.voice ++ " voice.") ++ rest ∧
      (rest = "" ∨ ∃ r : String, rest = "\n" ++ r)) ∧
    p.promptParts.take 5 = p.scalarParts := by
  constructor
  · unfold StyleProfile.to_prompt_text
    rw [promptParts_eq]
    simp only [List.append_assoc]
    generalize hE : ((if p.common_phrases ≠ [] then [p.phrasesLine] else []) ++
      ((if p.writing_patterns ≠ [] then [p.patternsLine] else []) ++
        (if p.examples ≠ [] then
          "Example style:" :: (p.examples.take 3).map StyleProfile.exampleBullet
        else []))) = E
    by_cases hE0 : E = []
    · subst hE0
      rw [List.append_nil]
      refine ⟨"", ?_, Or.inl rfl⟩
      simp [StyleProfile.scalarParts, joinSep, String.append_assoc]
    · refine ⟨"\n" ++ joinSep "\n" E, ?_, Or.inr ⟨_, rfl⟩⟩
      rw [joinSep_append "\n" p.scalarParts E (scalarParts_ne_nil p) hE0]
      simp only [StyleProfile.scalarParts, joinSep, String.append_assoc]
  · rw [promptParts_eq]
    simp only [List.append_assoc]
    rw [show (5 : Nat) = p.scalarParts.length from rfl]
    exact List.take_left _ _

/-- C4: `to_prompt_text` truncates `common_phrases` to the first 5 (each
double-quoted, comma-joined, one line prefixed "Common phrases include: "
ending with a period) and `examples` to the first 3 (header line
"Example style:" then one indented quoted bullet per example), emitting
each section only when the list is non-empty; on a ten-element phrase and
example list, phrases 0–4 and examples 0–2 appear, and phrase 9 and
example 9 do not. -/
theorem toPromptText_truncation :
    (∀ p : StyleProfile, p.promptParts = p.scalarParts
        ++ (if p.common_phrases ≠ [] then [p.phrasesLine] else [])
        ++ (if p.writing_patterns ≠ [] then [p.patternsLine] else [])
        ++ (if p.examples ≠ [] then
              "Example style:" :: (p.examples.take 3).map StyleProfile.exampleBullet
            else [])) ∧
    truncProfile.phrasesLine =
      "Common phrases include: \"phrase0\", \"phrase1\", \"phrase2\", \"phrase3\", \"phrase4\"." ∧
    truncProfile.to_prompt_text =
      "Write with a conversational tone.\nUse moderate vocabulary level.\nStructure sentences: varied.\nPrefer medium paragraphs.\nUse active voice.\nCommon phrases include: \"phrase0\", \"phrase1\", \"phrase2\", \"phrase3\", \"phrase4\".\nExample style:\n  - \"Example 0.\"\n  - \"Example 1.\"\n  - \"Example 2.\"" ∧
    containsSub truncProfile.to_prompt_text "\"phrase0\"" = true ∧
    containsSub truncProfile.to_prompt_text "\"phrase4\"" = true ∧
    containsSub truncProfile.to_prompt_text "phrase9" = false ∧
    containsSub truncProfile.to_prompt_text (StyleProfile.exampleBullet "Example 0.") = true ∧
    containsSub truncProfile.to_prompt_text (StyleProfile.exampleBullet "Example 2.") = true ∧
    containsSub truncProfile.to_prompt_text "Example 9." = false :=
  ⟨promptParts_eq, by set_option maxRecDepth 100000 in decide⟩

/-- C5: for every profile with non-empty `writing_patterns`,
`to_prompt_text` contains exactly one "Follow these patterns: " line,
holding all patterns comma-joined and a final period with no truncation,
and the line is absent when `writing_patterns` is empty. -/
theorem toPromptText_patterns_line :
    (∀ p : StyleProfile,
        p.promptParts.count p.patternsLine = if p.writing_patterns ≠ [] then 1 else 0) ∧
    twoPatternProfile.patternsLine = "Follow these patterns: a, b." ∧
    twoPatternProfile.patternsLine ∈ twoPatternProfile.promptParts ∧
    sevenPatternProfile.patternsLine = "Follow these patterns: q0, q1, q2, q3, q4, q5, q6." ∧
    sevenPatternProfile.patternsLine ∈ sevenPatternProfile.promptParts :=
  ⟨patternsLine_count, by decide⟩

/-! Helper lemmas about the extraction pipeline. -/

/-- A file contributes no sample exactly when its read fails. -/
lemma sampleOf_eq_none_iff (f : MDFile) : sampleOf f = none ↔ (f.readResult).isOk = false := by
  cases h : f.readResult <;> simp [sampleOf, h, Except.isOk, Except.toBool]

/-- C6: when recursive discovery under the resolved path finds no `.md`
file, `extract_style` fails with an error naming the searched directory,
attempts no file read and never reaches the external agent. -/
theorem extract_style_no_files (env : Env) (dir : String)
    (h : env.glob (expanduser env.home dir) = []) :
    extract_style env dir =
      (Except.error ("No markdown files found in " ++ expanduser env.home dir),
       ⟨[], false⟩) := by
  simp [extract_style, h]

/-- Witness for `extract_style_no_files` at a concrete empty directory. -/
theorem extract_style_no_files_witness :
    extract_style c6env "docs" =
      (Except.error "No markdown files found in docs", ⟨[], false⟩) :=
  extract_style_no_files c6env "docs" rfl

/-- C7: an individual unreadable file is skipped and never propagates: if
every attempted file is unreadable the pipeline fails with "Could not read
any writing samples" (without reaching the agent), if at least one
attempted file is readable the pipeline succeeds using exactly the
readable files, and the only error messages `extract_style` can produce
are the two `ExtractionError` messages. -/
theorem extract_style_read_failures :
    (∀ (env : Env) (dir : String),
      env.glob (expanduser env.home dir) ≠ [] →
      (∀ f ∈ (env.glob (expanduser env.home dir)).take max_samples,
          (f.readResult).isOk = false) →
      extract_style env dir =
        (Except.error "Could not read any writing samples",
         ⟨((env.glob (expanduser env.home dir)).take max_samples).map MDFile.name, false⟩)) ∧
    (∀ (env : Env) (dir : String),
      env.glob (expanduser env.home dir) ≠ [] →
      (∃ f ∈ (env.glob (expanduser env.home dir)).take max_samples,
          (f.readResult).isOk = true) →
      (extract_style env dir).1 =
        Except.ok (analyze_with_ai env.agent
          (joinSep "\n\n"
            (((env.glob (expanduser env.home dir)).take max_samples).filterMap sampleOf)))) ∧
    (∀ (env : Env) (dir : String) (m : String),
      (extract_style env dir).1 = Except.error m →
      m = "No markdown files found in " ++ expanduser env.home dir ∨
      m = "Could not read any writing samples") := by
  refine ⟨?_, ?_, ?_⟩
  · intro env dir h hall
    have hsamples :
        ((env.glob (expanduser env.home dir)).take max_samples).filterMap sampleOf = [] := by
      rw [List.filterMap_eq_nil_iff]
      intro f hf
      exact (sampleOf_eq_none_iff f).mpr (hall f hf)
    simp [extract_style, h, hsamples]
  · rintro env dir h ⟨f, hf, hok⟩
    have hsamples :
        ((env.glob (expanduser env.home dir)).take max_samples).filterMap sampleOf ≠ [] := by
      intro hnil
      rw [List.filterMap_eq_nil_iff] at hnil
      have hz := (sampleOf_eq_none_iff f).mp (hnil f hf)
      rw [hok] at hz
      cases hz
    simp [extract_style, h, hsamples]
  · intro env dir m hm
    by_cases h : env.glob (expanduser env.home dir) = []
    · simp [extract_style, h] at hm
      exact Or.inl hm.symm
    · by_cases h2 :
          ((env.glob (expanduser env.home dir)).take max_samples).filterMap sampleOf = []
      · simp [extract_style, h, h2] at hm
        exact Or.inr hm.symm
      · simp [extract_style, h, h2] at hm

/-- Witness for `extract_style_read_failures`: with one readable and one
unreadable file the call succeeds (here with the default profile, the
agent being down), and with a single unreadable file it fails with the
no-readable-samples error. -/
theorem extract_style_read_failures_witness :
    (extract_style c7env "docs").1 = Except.ok default_profile ∧
    extract_style c7failEnv "docs" =
      (Except.error "Could not read any writing samples", ⟨["bad.md"], false⟩) := by
  constructor
  · exact extract_style_read_failures.2.1 c7env "docs" (by decide)
      ⟨⟨"good.md", Except.ok "content"⟩, by decide, rfl⟩
  · exact extract_style_read_failures.1 c7failEnv "docs" (by decide) (by decide)

/-- C8: the pipeline reads at most the first `max_samples` discovered
files — two environments agreeing on the discovery listing up to its first
five entries (and its length) are indistinguishable — each sample keeps
only the first `max_chars_per_sample` characters of its content under a
`=== name ===` delimiter line, and the number of attempted reads is never
above `max_samples`. -/
theorem extract_style_read_bound :
    (∀ (env env' : Env) (dir : String),
      env.home = env'.home → env.agent = env'.agent →
      (∀ d, (env.glob d).length = (env'.glob d).length) →
      (∀ d, (env.glob d).take max_samples = (env'.glob d).take max_samples) →
      extract_style env dir = extract_style env' dir) ∧
    (∀ (f : MDFile) (c : String), f.readResult = Except.ok c →
      sampleOf f = some ("=== " ++ f.name ++ " ===\n" ++ c.take max_chars_per_sample)) ∧
    (∀ (f g : MDFile), f.name = g.name → ∀ (c c' : String),
      f.readResult = Except.ok c → g.readResult = Except.ok c' →
      c.take max_chars_per_sample = c'.take max_chars_per_sample →
      sampleOf f = sampleOf g) ∧
    (∀ (env : Env) (dir : String),
      (extract_style env dir).2.readsAttempted.length ≤ max_samples) := by
  refine ⟨?_, ?_, ?_, ?_⟩
  · intro env env' dir hh ha hlen htake
    unfold extract_style
    rw [hh, ha]
    have hl := hlen (expanduser env'.home dir)
    have ht := htake (expanduser env'.home dir)
    by_cases h0 : env'.glob (expanduser env'.home dir) = []
    · have h0' : env.glob (expanduser env'.home dir) = [] := by
        rw [← List.length_eq_zero, hl, List.length_eq_zero]
        exact h0
      simp [h0, h0']
    · have h0' : env.glob (expanduser env'.home dir) ≠ [] := by
        intro hc
        apply h0
        rwa [← List.length_eq_zero, ← hl, List.length_eq_zero]
      simp only [h0, h0', ht, if_neg]
  · intro f c h
    simp [sampleOf, h]
  · intro f g hn c c' hf hg ht
    simp [sampleOf, hf, hg, hn, ht]
  · intro env dir
    unfold extract_style
    by_cases h0 : env.glob (expanduser env.home dir) = []
    · simp [h0, max_samples]
    · by_cases h1 :
          ((env.glob (expanduser env.home dir)).take max_samples).filterMap sampleOf = []
      · simp only [h0, h1, if_neg, if_pos]
        simp [List.length_take]
      · simp only [h0, h1, if_neg]
        simp [List.length_take]

/-- Witness for `extract_style_read_bound`: two six-file environments
differing only in the sixth file's readability produce identical runs,
which read exactly the first five files. -/
theorem extract_style_read_bound_witness :
    extract_style sixFilesEnvA "docs" = extract_style sixFilesEnvB "docs" ∧
    (extract_style sixFilesEnvA "docs").2 =
      ⟨["f1.md", "f2.md", "f3.md", "f4.md", "f5.md"], true⟩ := by
  constructor
  · exact extract_style_read_bound.1 sixFilesEnvA sixFilesEnvB "docs" rfl rfl
      (fun _ => rfl) (fun _ => rfl)
  · decide

/-- C2: the internal AI analysis step never raises — any agent failure is
absorbed and the fixed default profile (with the exact field values of
`_default_profile`) is returned instead, so `extract_style` still succeeds
whenever a readable sample exists even with a permanently failing agent. -/
theorem analyze_with_ai_failure_default :
    (∀ (agent : String → Except String StyleProfile) (samples e : String),
      agent (analysisPrompt samples) = Except.error e →
      analyze_with_ai agent samples = default_profile) ∧
    default_profile =
      ⟨"conversational", "moderate", "varied", "medium", "active", [],
       ["introduction-body-conclusion", "problem-solution"],
       ["Clear and direct communication.", "Focus on practical value."]⟩ ∧
    (∀ (env : Env) (dir : String),
      (∀ q, ∃ e, env.agent q = Except.error e) →
      env.glob (expanduser env.home dir) ≠ [] →
      (∃ f ∈ (env.glob (expanduser env.home dir)).take max_samples,
          (f.readResult).isOk = true) →
      (extract_style env dir).1 = Except.ok default_profile) := by
  refine ⟨?_, rfl, ?_⟩
  · intro agent samples e h
    simp [analyze_with_ai, h]
  · rintro env dir hagent h ⟨f, hf, hok⟩
    have hsamples :
        ((env.glob (expanduser env.home dir)).take max_samples).filterMap sampleOf ≠ [] := by
      intro hnil
      rw [List.filterMap_eq_nil_iff] at hnil
      have hz := (sampleOf_eq_none_iff f).mp (hnil f hf)
      rw [hok] at hz
      cases hz
    obtain ⟨e, he⟩ := hagent (analysisPrompt (joinSep "\n\n"
      (((env.glob (expanduser env.home dir)).take max_samples).filterMap sampleOf)))
    simp [extract_style, h, hsamples, analyze_with_ai, he]

/-- Witness for `analyze_with_ai_failure_default` at a concrete readable
directory with a permanently failing agent. -/
theorem analyze_with_ai_failure_default_witness :
    (extract_style c2env "docs").1 = Except.ok default_profile :=
  analyze_with_ai_failure_default.2.2 c2env "docs"
    (fun _ => ⟨"network unavailable", rfl⟩) (by decide)
    ⟨⟨"a.md", Except.ok "hello"⟩, by decide, rfl⟩

/-- C1 (code evaluation): `extract_style` resolves the directory with
`Path.expanduser` only — an embedded environment-variable reference such
as `$DOCS` survives the resolution verbatim, the result is not made
absolute, and discovery then runs under that literal unresolved path; only
a leading `~` is expanded. -/
theorem expanduser_no_env_expansion :
    expanduser "/home/user" "$DOCS/samples" = "$DOCS/samples" ∧
    containsSub (expanduser "/home/user" "$DOCS/samples") "$DOCS" = true ∧
    strStarts (expanduser "/home/user" "$DOCS/samples") "/" = false ∧
    (extract_style c1env "$DOCS/samples").2.readsAttempted = ["a.md"] ∧
    expanduser "/home/user" "~/writings" = "/home/user/writings" := by
  decide

/-! Helper lemmas about pydantic-style validation. -/

/-- A successful `Except` bind splits into a successful head and tail. -/
lemma except_bind_ok {α β : Type} {x : Except String α} {f : α → Except String β} {b : β}
    (h : x >>= f = Except.ok b) : ∃ a, x = Except.ok a ∧ f a = Except.ok b := by
  cases x with
  | ok a => exact ⟨a, rfl, h⟩
  | error e => simp [Bind.bind, Except.bind] at h

/-- A required string field validates only when present with string type. -/
lemma reqStr_ok {n : String} {o : Option PValue} {v : String}
    (h : reqStr n o = Except.ok v) : o = some (PValue.s v) := by
  cases o with
  | none => simp [reqStr] at h
  | some pv =>
    cases pv with
    | s w =>
      simp only [reqStr, Except.ok.injEq] at h
      rw [h]
    | l _ => simp [reqStr] at h

/-- An optional list field validates to its list when present and to `[]`
when omitted. -/
lemma optStrList_ok {n : String} {o : Option PValue} {v : List String}
    (h : optStrList n o = Except.ok v) : o = some (PValue.l v) ∨ (o = none ∧ v = []) := by
  cases o with
  | none =>
    simp only [optStrList, Except.ok.injEq] at h
    exact Or.inr ⟨rfl, h.symm⟩
  | some pv =>
    cases pv with
    | s _ => simp [optStrList] at h
    | l w =>
      simp only [optStrList, Except.ok.injEq] at h
      rw [h]
      exact Or.inl rfl

/-- C9: constructing (validating) a StyleProfile succeeds only when each of
the five required scalar fields is present with string type — omitting one
or supplying a non-string fails validation — while omitting any of the
three list fields succeeds, that field defaulting to the empty list. -/
theorem model_validate_required_fields :
    (∀ (r : RawProfile) (p : StyleProfile),
      StyleProfile.model_validate r = Except.ok p →
      ((∃ s, r.tone = some (PValue.s s)) ∧
       (∃ s, r.vocabulary_level = some (PValue.s s)) ∧
       (∃ s, r.sentence_structure = some (PValue.s s)) ∧
       (∃ s, r.paragraph_length = some (PValue.s s)) ∧
       (∃ s, r.voice = some (PValue.s s)) ∧
       (r.common_phrases = none → p.common_phrases = []) ∧
       (r.writing_patterns = none → p.writing_patterns = []) ∧
       (r.examples = none → p.examples = []))) ∧
    (∀ t vl ss pl vo : String,
      StyleProfile.model_validate
        ⟨some (PValue.s t), some (PValue.s vl), some (PValue.s ss),
         some (PValue.s pl), some (PValue.s vo), none, none, none⟩ =
      Except.ok ⟨t, vl, ss, pl, vo, [], [], []⟩) := by
  constructor
  · intro r p h
    unfold StyleProfile.model_validate at h
    obtain ⟨t, ht, h⟩ := except_bind_ok h
    obtain ⟨vl, hvl, h⟩ := except_bind_ok h
    obtain ⟨ss, hss, h⟩ := except_bind_ok h
    obtain ⟨pl, hpl, h⟩ := except_bind_ok h
    obtain ⟨vo, hvo, h⟩ := except_bind_ok h
    obtain ⟨cp, hcp, h⟩ := except_bind_ok h
    obtain ⟨wp, hwp, h⟩ := except_bind_ok h
    obtain ⟨ex, hex, h⟩ := except_bind_ok h
    have hp : (⟨t, vl, ss, pl, vo, cp, wp, ex⟩ : StyleProfile) = p := Except.ok.inj h
    refine ⟨⟨t, reqStr_ok ht⟩, ⟨vl, reqStr_ok hvl⟩, ⟨ss, reqStr_ok hss⟩,
      ⟨pl, reqStr_ok hpl⟩, ⟨vo, reqStr_ok hvo⟩, ?_, ?_, ?_⟩
    · intro hnone
      rcases optStrList_ok hcp with hsome | ⟨_, hnil⟩
      · rw [hnone] at hsome
        cases hsome
      · rw [← hp]
        exact hnil
    · intro hnone
      rcases optStrList_ok hwp with hsome | ⟨_, hnil⟩
      · rw [hnone] at hsome
        cases hsome
      · rw [← hp]
        exact hnil
    · intro hnone
      rcases optStrList_ok hex with hsome | ⟨_, hnil⟩
      · rw [hnone] at hsome
        cases hsome
      · rw [← hp]
        exact hnil
  · intro t vl ss pl vo
    rfl

/-- Witness for `model_validate_required_fields`: a scalars-only mapping
validates with the three list fields defaulted to `[]`. -/
theorem model_validate_required_fields_witness :
    StyleProfile.model_validate
        ⟨some (PValue.s "formal"), some (PValue.s "advanced"), some (PValue.s "complex"),
         some (PValue.s "long"), some (PValue.s "passive"), none, none, none⟩ =
      Except.ok ⟨"formal", "advanced", "complex", "long", "passive", [], [], []⟩ ∧
    (∃ s, (some (PValue.s "formal") : Option PValue) = some (PValue.s s)) := by
  constructor
  · exact model_validate_required_fields.2 "formal" "advanced" "complex" "long" "passive"
  · exact (model_validate_required_fields.1
      ⟨some (PValue.s "formal"), some (PValue.s "advanced"), some (PValue.s "complex"),
       some (PValue.s "long"), some (PValue.s "passive"), none, none, none⟩
      ⟨"formal", "advanced", "complex", "long", "passive", [], [], []⟩ rfl).1

/-! Helper lemmas for the JSON round trip: the decoder undoes the encoder. -/

/-- Hex digits decode back to their value. -/
lemma hexVal_hexDig {n : Nat} (h : n < 16) : hexVal (hexDig n) = some n := by
  have hall : ∀ m < 16, hexVal (hexDig m) = some m := by decide
  exact hall n h

/-- Decoding after the escape of one character recovers that character. -/
lemma decStrAux_esc (c : Char) (rest : List Char) (pr : List Char × List Char)
    (h : decStrAux rest = some pr) :
    decStrAux (escChar c ++ rest) = some (c :: pr.1, pr.2) := by
  by_cases h1 : c = '"'
  · subst h1
    rw [show escChar '"' = ['\\', '"'] from rfl]
    rw [List.cons_append, List.cons_append, decStrAux.eq_def]
    simp [h]
  · by_cases h2 : c = '\\'
    · subst h2
      rw [show escChar '\\' = ['\\', '\\'] from rfl]
      rw [List.cons_append, List.cons_append, decStrAux.eq_def]
      simp [h]
    · by_cases h3 : c.toNat < 32
      · have e1 : hexVal (hexDig (c.toNat / 16)) = some (c.toNat / 16) :=
          hexVal_hexDig (by omega)
        have e2 : hexVal (hexDig (c.toNat % 16)) = some (c.toNat % 16) :=
          hexVal_hexDig (Nat.mod_lt _ (by norm_num))
        have harith : c.toNat / 16 * 16 + c.toNat % 16 = c.toNat := by omega
        rw [show escChar c = ['\\', 'u', '0', '0', hexDig (c.toNat / 16), hexDig (c.toNat % 16)]
          from by simp [escChar, h1, h2, h3]]
        rw [decStrAux.eq_def]
        simp [e1, e2, h, show hexVal '0' = some 0 from rfl]
        rw [harith, Char.ofNat_toNat]
      · rw [show escChar c = [c] from by simp [escChar, h1, h2, h3]]
        rw [List.cons_append, decStrAux.eq_def]
        simp [h1, h2, h3, h]

/-- Decoding an escaped character sequence up to the closing quote recovers it. -/
lemma decStrAux_enc (cs : List Char) (tail : List Char) :
    decStrAux ((cs.map escChar).flatten ++ '"' :: tail) = some (cs, tail) := by
  induction cs with
  | nil =>
    rw [List.map_nil, List.flatten_nil, List.nil_append, decStrAux.eq_def]
    simp
  | cons c cs ih =>
    have h := decStrAux_esc c _ _ ih
    simpa [List.append_assoc] using h

/-- Character data of an encoded string. -/
lemma encStr_data (s : String) :
    (encStr s).data = '"' :: ((s.data.map escChar).flatten ++ ['"']) := by
  simp [encStr, String.data_append]

/-- The string decoder undoes the string encoder. -/
lemma decStr_enc (s : String) (tail : List Char) :
    decStr ((encStr s).data ++ tail) = some (s, tail) := by
  obtain ⟨d⟩ := s
  rw [encStr_data]
  simp only [List.cons_append, List.append_assoc, List.singleton_append]
  rw [decStr.eq_def]
  simp [decStrAux_enc]

/-- The array decoder undoes the array encoder given enough fuel. -/
lemma decItems_enc (ss : List String) (fuel : Nat) (tail : List Char)
    (hf : ss.length ≤ fuel) :
    decItems fuel ((joinSep "," (ss.map encStr)).data ++ ']' :: tail) = some (ss, tail) := by
  induction ss generalizing fuel tail with
  | nil =>
    rw [show joinSep "," (([] : List String).map encStr) = "" from rfl]
    rw [show ("" : String).data = ([] : List Char) from rfl, List.nil_append, decItems.eq_def]
    simp
  | cons s ss ih =>
    cases ss with
    | nil =>
      rw [show joinSep "," ([s].map encStr) = encStr s from rfl]
      have hd := decStr_enc s (']' :: tail)
      simp only [encStr_data, String.data_append, List.cons_append, List.append_assoc,
        List.singleton_append, List.nil_append] at hd ⊢
      rw [decItems.eq_def]
      simp [hd]
    | cons s2 ss2 =>
      have hj : joinSep "," ((s :: s2 :: ss2).map encStr) =
          encStr s ++ "," ++ joinSep "," ((s2 :: ss2).map encStr) := rfl
      rw [hj]
      obtain ⟨fuel', rfl⟩ : ∃ f, fuel = f + 1 := ⟨fuel - 1, by simp at hf; omega⟩
      have hd := decStr_enc s
        (',' :: ((joinSep "," ((s2 :: ss2).map encStr)).data ++ ']' :: tail))
      simp only [encStr_data, String.data_append, List.cons_append, List.append_assoc,
        show ("," : String).data = [','] from rfl, List.singleton_append,
        List.nil_append, List.map_cons] at hd ⊢
      rw [decItems.eq_def]
      simp [hd]
      have ihh := ih fuel' tail (by simp at hf ⊢; omega)
      simp only [List.map_cons] at ihh
      rw [ihh]

/-- The value decoder undoes the value encoder given enough fuel. -/
lemma decVal_enc (v : PValue) (fuel : Nat) (tail : List Char) (hf : pvalLen v ≤ fuel) :
    decVal fuel ((encVal v).data ++ tail) = some (v, tail) := by
  cases v with
  | s str =>
    rw [show encVal (PValue.s str) = encStr str from rfl]
    have hd := decStr_enc str tail
    simp only [encStr_data, String.data_append, List.cons_append, List.append_assoc,
      List.singleton_append, List.nil_append] at hd ⊢
    rw [decVal.eq_def]
    simp [hd]
  | l xs =>
    rw [show encVal (PValue.l xs) = encStrList xs from rfl]
    have hdata : (encStrList xs).data =
        '[' :: ((joinSep "," (xs.map encStr)).data ++ [']']) := by
      simp [encStrList, String.data_append]
    rw [hdata]
    simp only [List.cons_append, List.append_assoc, List.singleton_append]
    rw [decVal.eq_def]
    simp [decItems_enc xs fuel tail (by simpa [pvalLen] using hf)]

/-- The object-member decoder undoes the member encoder given enough fuel. -/
lemma decPairs_enc (ps : List (String × PValue)) (pfuel vfuel : Nat) (tail : List Char)
    (hp : ps.length ≤ pfuel) (hv : ∀ kv ∈ ps, pvalLen kv.2 ≤ vfuel) :
    decPairs pfuel vfuel ((encPairs ps).data ++ rbrace :: tail) = some (ps, tail) := by
  induction ps generalizing pfuel tail with
  | nil =>
    rw [show encPairs [] = "" from rfl]
    rw [show ("" : String).data = ([] : List Char) from rfl, List.nil_append, decPairs.eq_def]
    simp [rbrace]
  | cons kv ps ih =>
    obtain ⟨k, v⟩ := kv
    have hvk : pvalLen v ≤ vfuel := hv (k, v) (by simp)
    cases ps with
    | nil =>
      rw [show encPairs [(k, v)] = encStr k ++ ":" ++ encVal v from rfl]
      have hd := decStr_enc k (':' :: ((encVal v).data ++ rbrace :: tail))
      have hva := decVal_enc v vfuel (rbrace :: tail) hvk
      simp only [encStr_data, String.data_append, List.cons_append, List.append_assoc,
        show (":" : String).data = [':'] from rfl, List.singleton_append,
        List.nil_append] at hd hva ⊢
      rw [decPairs.eq_def]
      have hquote : ¬ (('"' : Char) = rbrace) := by decide
      simp [hd, hquote, hva]
    | cons kv2 ps2 =>
      have hj : encPairs ((k, v) :: kv2 :: ps2) =
          (encStr k ++ ":" ++ encVal v) ++ "," ++ encPairs (kv2 :: ps2) := rfl
      rw [hj]
      obtain ⟨pfuel', rfl⟩ : ∃ f, pfuel = f + 1 := ⟨pfuel - 1, by simp at hp; omega⟩
      have hd := decStr_enc k
        (':' :: ((encVal v).data ++ ',' :: ((encPairs (kv2 :: ps2)).data ++ rbrace :: tail)))
      have hva := decVal_enc v vfuel
        (',' :: ((encPairs (kv2 :: ps2)).data ++ rbrace :: tail)) hvk
      simp only [encStr_data, String.data_append, List.cons_append, List.append_assoc,
        show (":" : String).data = [':'] from rfl,
        show ("," : String).data = [','] from rfl, List.singleton_append,
        List.nil_append] at hd hva ⊢
      rw [decPairs.eq_def]
      have hquote : ¬ (('"' : Char) = rbrace) := by decide
      have hcomma : ¬ ((',' : Char) = rbrace) := by decide
      simp [hd, hquote, hcomma, hva]
      have ihh := ih pfuel' tail (by simp at hp ⊢; omega)
        (fun kv hkv => hv kv (List.mem_cons_of_mem _ hkv))
      simp only [List.map_cons] at ihh
      rw [ihh]

/-- Escaping cannot shorten a character sequence. -/
lemma flatten_escChar_len (d : List Char) :
    d.length ≤ ((d.map escChar).flatten).length := by
  induction d with
  | nil => simp
  | cons c cs ih =>
    simp only [List.map_cons, List.flatten_cons, List.length_append, List.length_cons]
    have h1 : 1 ≤ (escChar c).length := by
      unfold escChar
      split
      · simp
      · split
        · simp
        · split <;> simp
    omega

/-- An encoded string is at least two characters longer than its content. -/
lemma encStr_len (s : String) : s.data.length + 2 ≤ (encStr s).data.length := by
  rw [encStr_data]
  simp only [List.length_cons, List.length_append, List.length_singleton]
  have := flatten_escChar_len s.data
  omega

/-- A comma-joined list of encoded strings is almost as long as the list. -/
lemma joinSep_encStr_len (xs : List String) :
    xs.length ≤ (joinSep "," (xs.map encStr)).data.length + 1 := by
  induction xs with
  | nil => simp [joinSep]
  | cons x xs ih =>
    cases xs with
    | nil =>
      simp only [List.map_cons, List.map_nil, List.length_cons, List.length_nil]
      omega
    | cons y ys =>
      rw [show joinSep "," ((x :: y :: ys).map encStr) =
        encStr x ++ "," ++ joinSep "," ((y :: ys).map encStr) from rfl]
      simp only [List.map_cons, String.data_append, List.length_append,
        List.length_cons] at ih ⊢
      have h1 := encStr_len x
      omega

/-- Every joined part is at most as long as the joined whole. -/
lemma mem_joinSep_len (sep : String) (l : List String) (x : String) (hx : x ∈ l) :
    x.data.length ≤ (joinSep sep l).data.length := by
  induction l with
  | nil => cases hx
  | cons a as ih =>
    cases as with
    | nil =>
      rw [List.mem_singleton] at hx
      subst hx
      exact Nat.le_refl _
    | cons b bs =>
      rw [show joinSep sep (a :: b :: bs) = a ++ sep ++ joinSep sep (b :: bs) from rfl]
      simp only [String.data_append, List.length_append]
      rcases List.mem_cons.mp hx with rfl | hmem
      · omega
      · have := ih hmem
        omega

/-- An encoded string array is at least as long as the element count. -/
lemma encStrList_len (xs : List String) : xs.length ≤ (encStrList xs).data.length := by
  have := joinSep_encStr_len xs
  simp only [encStrList, String.data_append, List.length_append, List.length_singleton]
  omega

/-- Character data of a serialized profile document. -/
lemma dump_json_data (p : StyleProfile) :
    (StyleProfile.model_dump_json p).data =
      lbrace :: ((encPairs (dumpPairs p)).data ++ [rbrace]) := by
  simp [StyleProfile.model_dump_json, String.data_append]
  constructor <;> decide

/-- The serialized document is long enough to fuel its own decoding. -/
lemma model_dump_json_bounds (p : StyleProfile) :
    8 ≤ (StyleProfile.model_dump_json p).data.length ∧
    ∀ kv ∈ dumpPairs p, pvalLen kv.2 ≤ (StyleProfile.model_dump_json p).data.length := by
  have hlen : (StyleProfile.model_dump_json p).data.length =
      (joinSep "," ((dumpPairs p).map (fun kv => encStr kv.1 ++ ":" ++ encVal kv.2))).data.length
        + 2 := by
    rw [dump_json_data]
    simp [encPairs]
  constructor
  · have hm : (encStr "tone" ++ ":" ++ encVal (PValue.s p.tone)) ∈
        (dumpPairs p).map (fun kv => encStr kv.1 ++ ":" ++ encVal kv.2) := by
      simp [dumpPairs]
    have h1 := mem_joinSep_len "," _ _ hm
    have h2 : 7 ≤ (encStr "tone" ++ ":" ++ encVal (PValue.s p.tone)).data.length := by
      have h3 := encStr_len "tone"
      have h4 : ("tone" : String).data.length = 4 := rfl
      simp only [String.data_append, List.length_append, List.length_singleton]
      omega
    omega
  · intro kv hkv
    have hm : (encStr kv.1 ++ ":" ++ encVal kv.2) ∈
        (dumpPairs p).map (fun kv => encStr kv.1 ++ ":" ++ encVal kv.2) :=
      List.mem_map_of_mem _ hkv
    have h1 := mem_joinSep_len "," _ _ hm
    have h2 : pvalLen kv.2 ≤ (encVal kv.2).data.length := by
      cases hv2 : kv.2 with
      | s str => simp [pvalLen]
      | l xs =>
        have := encStrList_len xs
        simpa [pvalLen, encVal] using this
    have h3 : (encVal kv.2).data.length ≤ (encStr kv.1 ++ ":" ++ encVal kv.2).data.length := by
      simp only [String.data_append, List.length_append]
      omega
    omega

/-- Decoding a serialized profile document recovers its member list. -/
lemma decodeDoc_dump (p : StyleProfile) :
    decodeDoc (StyleProfile.model_dump_json p) = some (dumpPairs p) := by
  obtain ⟨h8, hv⟩ := model_dump_json_bounds p
  unfold decodeDoc
  rw [dump_json_data] at h8 hv ⊢
  simp only [List.length_cons, List.length_append, List.length_singleton] at h8 hv ⊢
  rw [decPairs_enc (dumpPairs p) _ _ []
    (by rw [show (dumpPairs p).length = 8 from rfl]; omega) hv]
  simp

/-- C10: serializing a StyleProfile to JSON text and deserializing, and
separately serializing to a plain key-value mapping and deserializing,
each reconstruct a profile equal in every field to the original, and JSON
deserialization applies the same required-field validation as
construction (so an empty JSON object is rejected). -/
theorem serialization_round_trip :
    (∀ p : StyleProfile,
      StyleProfile.model_validate_json (StyleProfile.model_dump_json p) = Except.ok p) ∧
    (∀ p : StyleProfile,
      StyleProfile.model_validate (StyleProfile.model_dump p) = Except.ok p) ∧
    (StyleProfile.model_validate_json "\x7b\x7d").isOk = false := by
  refine ⟨?_, fun p => rfl, by decide⟩
  intro p
  unfold StyleProfile.model_validate_json
  rw [decodeDoc_dump]
  rfl
